import Mathlib

set_option linter.unusedVariables false

namespace Matterbuild

/-! Shallow embedding of the matterbuild sources: `src/server/server.go` and
the Jenkins orchestration file `src/unnamed/part_000` (package `server`).
Strings manipulated by the Go code are modelled as `List Char` where splitting
and suffix tests matter, and as `String` elsewhere. External collaborators
(the Jenkins client, the HTTP probe) are modelled as explicit environment
records of the responses they give. -/

/-- Embeds `AppError` from server.go: a description plus an optional wrapped
parent error; the parent is stored in rendered form. -/
structure AppError where
  errorDescription : String
  parent : Option String
deriving DecidableEq, Repr

/-- Embeds `NewError` from server.go. -/
def newError (description : String) (parent : Option String) : AppError :=
  ⟨description, parent⟩

/-- Embeds the `Error()` method of `AppError` from server.go: the rendered
message shown to the user. -/
def AppError.render (e : AppError) : String :=
  match e.parent with
  | none => e.errorDescription
  | some p => e.errorDescription ++ " |:| " ++ p

/-- One atom of the two version regexes of server.go: a `[0-9]+` group, the
unescaped `.` (which in Go regexp matches any single character), or a literal
character. -/
inductive PatAtom where
  | digits
  | anyChar
  | lit (c : Char)
deriving DecidableEq, Repr

/-- Anchored matching of a sequence of atoms against a character list. This is
the semantics of Go `regexp.MatchString` for the two patterns of server.go,
which consist only of `[0-9]+`, `.` and literal characters between `^` and
`$`. -/
def matchAtoms : List PatAtom → List Char → Bool
  | ps, [] => ps.isEmpty
  | [], _ :: _ => false
  | .digits :: ps, c :: t => c.isDigit && (matchAtoms ps t || matchAtoms (.digits :: ps) t)
  | .anyChar :: ps, _ :: t => matchAtoms ps t
  | .lit d :: ps, c :: t => c == d && matchAtoms ps t

/-- `finalVersionRxp = ^[0-9]+.[0-9]+.[0-9]+$` from server.go line 308; the
dots are unescaped and match any character. -/
def finalVersionRxp : List PatAtom := [.digits, .anyChar, .digits, .anyChar, .digits]

/-- `rcRxp = ^[0-9]+.[0-9]+.[0-9]+-rc[0-9]+$` from server.go line 309; the
dots are unescaped and match any character. -/
def rcRxp : List PatAtom :=
  [.digits, .anyChar, .digits, .anyChar, .digits, .lit '-', .lit 'r', .lit 'c', .digits]

/-- The spec grammar `MAJOR.MINOR.PATCH`: digit components separated by
literal dots. Written from the spec wording, to be compared with
`finalVersionRxp`. -/
def specFinalGrammar : List PatAtom := [.digits, .lit '.', .digits, .lit '.', .digits]

/-- The spec grammar `MAJOR.MINOR.PATCH-rcN` with literal dots. Written from
the spec wording, to be compared with `rcRxp`. -/
def specRcGrammar : List PatAtom :=
  [.digits, .lit '.', .digits, .lit '.', .digits, .lit '-', .lit 'r', .lit 'c', .digits]

/-- Numeric value of a digit string. -/
def natOfDigits (l : List Char) : Nat :=
  l.foldl (fun a c => a * 10 + (c.toNat - ('0').toNat)) 0

/-- Embeds Go `strconv.Atoi` on a 64-bit platform: optional sign, a nonempty
digit string, error outside the int64 range. -/
def goAtoi (l : List Char) : Option Int :=
  let signSplit : Int × List Char :=
    match l with
    | c :: t => if c = '+' then (1, t) else if c = '-' then (-1, t) else (1, l)
    | [] => (1, l)
  let digits := signSplit.2
  if digits = [] ∨ ¬ digits.all Char.isDigit then none
  else
    let v : Int := signSplit.1 * (natOfDigits digits : Int)
    if v < -(2 ^ 63) ∨ 2 ^ 63 - 1 < v then none else some v

/-- The Go expression `intVer + 1` at type `int`, with 64-bit wraparound. -/
def goIntAdd1 (v : Int) : Int :=
  if v = 2 ^ 63 - 1 then -(2 ^ 63) else v + 1

/-- Embeds Go `strconv.Itoa`. -/
def goItoa (v : Int) : List Char :=
  if v < 0 then '-' :: Nat.toDigits 10 v.natAbs else Nat.toDigits 10 v.toNat

/-- The version-splitting step of `cutReleaseCommandF` (server.go lines
318-340): try `rcRxp` first, splitting on `-` into release part and rc part;
otherwise `finalVersionRxp`; otherwise reject. Also computes
`isFirstMinorRelease`. -/
def parseVersion (versionString : List Char) :
    Except AppError (List Char × List Char × Bool) :=
  if matchAtoms rcRxp versionString then
    match versionString.splitOn '-' with
    | [releasePart, rcPart] =>
      .ok (releasePart, rcPart,
        (rcPart == ['r', 'c', '1'] && List.isSuffixOf ['.', '0'] releasePart))
    | _ =>
      .error (newError "Bad version argument. Can\x27t split on -. Typo? If not the regex might be broken. If so be more careful!!" none)
  else if matchAtoms finalVersionRxp versionString then
    .ok (versionString, [], false)
  else
    .error (newError "Bad version argument. Typo? If not the regex might be broken. If so be more careful!!" none)

/-- The artifact probe URL built in `cutReleaseCommandF` (server.go line 359). -/
def s3Url (oneReleaseUp : List Char) : List Char :=
  ("http://releases.mattermost.com/").toList ++ oneReleaseUp
    ++ ("-rc1/mattermost-").toList ++ oneReleaseUp
    ++ ("-rc1-linux-amd64.tar.gz").toList

/-- External effects available to `cutReleaseCommandF`: the HTTP probe
(`none` models a transport error, `some s` a response with status code `s`)
and the result that `CutRelease` reports when it is called. -/
structure CutCmdEnv where
  probe : List Char → Option Nat
  cutResult : Option AppError

/-- Remote calls made by `cutReleaseCommandF`: which URL (if any) was probed,
and with which arguments (if any) `CutRelease` was called
(releasePart, rcPart, isFirstMinorRelease, backport, dryrun). -/
structure CutCmdTrace where
  probed : Option (List Char)
  cutCalled : Option (List Char × List Char × Bool × Bool × Bool)
deriving DecidableEq, Repr

/-- Observable outcome of `cutReleaseCommandF`: an error returned to cobra, an
error written via `WriteErrorResponse`, or the in-channel success message. -/
inductive CutCmdOutcome where
  | cmdError (e : AppError)
  | wroteError (e : AppError)
  | released (version : List Char)
deriving DecidableEq, Repr

/-- Embeds `cutReleaseCommandF` (server.go lines 311-373). -/
def cutReleaseCommandF (env : CutCmdEnv) (args : List (List Char))
    (backport dryrun : Bool) : CutCmdOutcome × CutCmdTrace :=
  match args with
  | [] => (.cmdError (newError "You need to specifiy a release version." none), ⟨none, none⟩)
  | versionString :: _ =>
    match parseVersion versionString with
    | .error e => (.wroteError e, ⟨none, none⟩)
    | .ok (releasePart, rcPart, isFirstMinorRelease) =>
      let callCut : Option (List Char) → CutCmdOutcome × CutCmdTrace := fun probed =>
        (match env.cutResult with
          | some e => .wroteError e
          | none => .released versionString,
         ⟨probed, some (releasePart, rcPart, isFirstMinorRelease, backport, dryrun)⟩)
      if backport then callCut none
      else
        match releasePart.splitOn '.' with
        | [maj, minor, _patch] =>
          match goAtoi minor with
          | none => (.wroteError (newError "Bad version argument." none), ⟨none, none⟩)
          | some intVer =>
            let oneReleaseUp := maj ++ '.' :: goItoa (goIntAdd1 intVer) ++ '.' :: ['0']
            let url := s3Url oneReleaseUp
            match env.probe url with
            | some 200 =>
              (.wroteError (newError ("Are you sure this isn\x27t a backport release? I see a future release on s3. (" ++ String.mk oneReleaseUp ++ ")OK") none),
               ⟨some url, none⟩)
            | _ => callCut (some url)
        | _ => (.wroteError (newError "Bad version argument." none), ⟨none, none⟩)

/-- The configuration fields consulted by `checkSlashPermissions`. -/
structure ServerConfig where
  allowedTokens : List String
  allowedUsers : List String
  releaseUsers : List String
deriving Repr

/-- Embeds `MMSlashCommand` from server.go. -/
structure MMSlashCommand where
  channelId : String
  channelName : String
  command : String
  teamName : String
  teamId : String
  text : String
  token : String
  userId : String
  username : String
deriving DecidableEq, Repr

/-- Embeds `checkSlashPermissions` (server.go lines 124-164): token allow-list
first, then user allow-list, then — only when the `command` form field equals
`"cut"` — the release-user allow-list. -/
def checkSlashPermissions (cfg : ServerConfig) (command : MMSlashCommand) : Option AppError :=
  if ¬ (cfg.allowedTokens.contains command.token) then
    some (newError "Token for slash command is incorrect" none)
  else if ¬ (cfg.allowedUsers.contains command.userId) then
    some (newError "You don\x27t have permissions to use this command." none)
  else if command.command = "cut" ∧ ¬ (cfg.releaseUsers.contains command.userId) then
    some (newError "You don\x27t have permissions to use this command." none)
  else
    none

/-- Accumulator pass for `goFields`: `acc` holds the current word reversed. -/
def goFieldsAux : List Char → List Char → List (List Char)
  | [], acc => if acc = [] then [] else [acc.reverse]
  | c :: t, acc =>
    if c.isWhitespace then
      if acc = [] then goFieldsAux t [] else acc.reverse :: goFieldsAux t []
    else
      goFieldsAux t (c :: acc)

/-- Embeds Go `strings.Fields` (with the preceding `strings.TrimSpace`, which
`Fields` subsumes): the maximal runs of non-whitespace characters. -/
def goFields (s : List Char) : List (List Char) :=
  goFieldsAux s []

/-- The action cobra dispatches on: the first whitespace-separated word of the
`text` form field (server.go line 295 sets the cobra args to
`strings.Fields(strings.TrimSpace(command.Text))`, and cobra routes on the
first argument). -/
def requestedAction (text : String) : Option (List Char) :=
  (goFields text.toList).head?

/-- Observable result of the authorization prefix of `slashCommandHandler`. -/
inductive HandlerStep where
  | rejected (e : AppError)
  | dispatched (action : Option (List Char))
deriving DecidableEq, Repr

/-- The authorization-then-dispatch prefix of `slashCommandHandler`
(server.go lines 166-300): a failed permission check writes the error and
returns; otherwise cobra executes the action named by the first word of the
text field. -/
def slashCommandAuth (cfg : ServerConfig) (command : MMSlashCommand) : HandlerStep :=
  match checkSlashPermissions cfg command with
  | some e => .rejected e
  | none => .dispatched (requestedAction command.text)

/-- One answer of `build.Poll()` in the reachability phase of
`RunJobWaitForResult`: either a transport error (`err3 != nil`, carrying the
error message) or an HTTP status code. -/
inductive PollResult where
  | ok (status : Nat)
  | err (msg : String)
deriving DecidableEq, Repr

/-- Negation of the Go loop condition `err3 != nil || status != 200`. -/
def pollOkB : PollResult → Bool
  | .ok s => s == 200
  | .err _ => false

/-- The `err3` value carried by a poll answer, as wrapped by `NewError`. -/
def pollParent : PollResult → Option String
  | .ok _ => none
  | .err m => some m

/-- The build state observed by one `build.Poll()` of the completion phase:
either `build.IsRunning()` still holds, or the build finished and
`build.GetResult()` returns `result`. -/
inductive BuildPhase where
  | running
  | finished (result : String)
deriving DecidableEq, Repr

/-- Externally visible events of `RunJobWaitForResult`, in order: the job
invocation, each `build.Poll()` of the reachability loop, each sleep (with its
duration in seconds), and each `build.Poll()` of the completion loop. -/
inductive Ev where
  | invoke
  | reachPoll
  | sleep (secs : Nat)
  | completionPoll
deriving DecidableEq, Repr

/-- Whether an event is a completion-phase poll. -/
def Ev.isCompletionPoll : Ev → Bool
  | .completionPoll => true
  | _ => false

/-- The event list of a completion wait that observes `running` `k` times
before the terminal poll: `k` rounds of poll-then-sleep-one-second followed by
the final poll. -/
def compEvs : Nat → List Ev
  | 0 => [.completionPoll]
  | k + 1 => .completionPoll :: .sleep 1 :: compEvs k

/-- Result of `RunJobWaitForResult`: an `AppError` (returned with `""`), the
terminal build result string, or divergence (the completion loop never
observes a non-running build; the Go loop would spin forever). -/
inductive RJResult where
  | appErr (e : AppError)
  | finished (result : String)
  | diverges
deriving DecidableEq, Repr

/-- Responses of the Jenkins server as `RunJobWaitForResult` consumes them:
the job lookup (`getJob`), the invocation (`InvokeSimple`), the successive
reachability poll answers, and the successive completion-phase build states. -/
structure JenkinsEnv where
  lookup : Option AppError
  invokeErr : Option String
  buildNumber : Nat
  reachPolls : Nat → PollResult
  phases : List BuildPhase

/-- The reachability retry loop of `RunJobWaitForResult` (part_000 lines
188-194), after the initial `build.Poll()`. `cur` is the answer the loop
condition inspects, `tries` the Go counter (starting at 1), `idx` the index of
the next poll. Returns the number of polls consumed on success, or the
unreachable error, together with the events of the loop body. -/
def reachAux (polls : Nat → PollResult) (buildNumber : Nat)
    (cur : PollResult) (tries idx : Nat) : Except AppError Nat × List Ev :=
  if pollOkB cur then (.ok idx, [])
  else
    let nxt := polls idx
    if h : 5 ≤ tries then
      (.error (newError ("Unable to get build for pre-checks job: " ++ toString buildNumber)
        (pollParent nxt)), [.reachPoll])
    else
      let rest := reachAux polls buildNumber nxt (tries + 1) (idx + 1)
      (rest.1, .reachPoll :: .sleep tries :: rest.2)
termination_by 5 - tries
decreasing_by omega

/-- The whole reachability phase (part_000 lines 176-194): the initial
`build.Poll()` followed by the retry loop with `tries = 1`. -/
def reachLoop (polls : Nat → PollResult) (buildNumber : Nat) :
    Except AppError Nat × List Ev :=
  let rest := reachAux polls buildNumber (polls 0) 1 1
  (rest.1, .reachPoll :: rest.2)

/-- The completion wait of `RunJobWaitForResult` (part_000 lines 197-204):
poll once, then sleep one second and poll again while the build is running;
return the result observed at the first non-running poll. `none` models the
loop running beyond the supplied observations. -/
def completionLoop : List BuildPhase → Option String × List Ev
  | [] => (none, [])
  | .running :: rest =>
    let r := completionLoop rest
    (r.1, .completionPoll :: .sleep 1 :: r.2)
  | .finished result :: _ => (some result, [.completionPoll])

/-- Embeds `RunJobWaitForResult` (part_000 lines 163-205). `name` and
`parameters` are forwarded to the remote side and do not influence the control
flow. On an invocation error the code wraps `err` — the nil error left over
from the successful `getJob` — rather than `err2`, so the parent is `none`. -/
def RunJobWaitForResult (name : String) (parameters : List (String × String))
    (env : JenkinsEnv) : RJResult × List Ev :=
  match env.lookup with
  | some e => (.appErr e, [])
  | none =>
    match env.invokeErr with
    | some _ => (.appErr (newError "Unable to envoke job." none), [.invoke])
    | none =>
      let reach := reachLoop env.reachPolls env.buildNumber
      match reach.1 with
      | .error e => (.appErr e, .invoke :: reach.2)
      | .ok _ =>
        let comp := completionLoop env.phases
        match comp.1 with
        | none => (.diverges, .invoke :: reach.2 ++ .sleep 5 :: comp.2)
        | some result => (.finished result, .invoke :: reach.2 ++ .sleep 5 :: comp.2)

/-- Responses consumed by `RunJobParameters`: the `getJob` lookup and the
`InvokeSimple` error, if any. -/
structure InvokeEnv where
  lookup : Option AppError
  invokeErr : Option String

/-- Embeds `RunJobParameters` (part_000 lines 207-218). On an invocation
error the code wraps `err` — the nil error of the successful lookup — rather
than `err2`. -/
def RunJobParameters (name : String) (parameters : List (String × String))
    (env : InvokeEnv) : Option AppError :=
  match env.lookup with
  | some e => some e
  | none =>
    match env.invokeErr with
    | some _ => some (newError "Unable to envoke job." none)
    | none => none

/-- Responses consumed by `SaveJobConfig`: the `getJob` lookup and the
`UpdateConfig` error, if any. -/
structure SaveEnv where
  lookup : Option AppError
  updateErr : Option String

/-- Embeds `SaveJobConfig` (part_000 lines 104-115). On an update error the
code wraps `err` — the nil error of the successful lookup — rather than
`err2`. -/
def SaveJobConfig (name : String) (config : String) (env : SaveEnv) : Option AppError :=
  match env.lookup with
  | some e => some e
  | none =>
    match env.updateErr with
    | some _ => some (newError "Unable to update job config" none)
    | none => none

/-- Responses consumed by `CutRelease`: what `RunJobWaitForResult` returns
for the prechecks job and for the release job (result string and error). -/
structure CutEnv where
  prechecks : String × Option AppError
  releaseJob : String × Option AppError

/-- The remote actions performed by the background continuation of
`CutRelease`: whether the release job was invoked, and the arguments of the
four post-release steps when they ran. -/
structure BgTrace where
  releaseInvoked : Bool
  ciBranch : Option (List Char)
  auxJobVersion : Option (List Char)
  preReleaseTarget : Option (List Char)
  preReleaseJobRun : Bool
deriving DecidableEq, Repr

/-- The empty background trace. -/
def BgTrace.none : BgTrace := ⟨false, Option.none, Option.none, Option.none, false⟩

/-- Embeds `RunReleasePrechecks` (part_000 lines 70-76). -/
def RunReleasePrechecks (env : CutEnv) : Option AppError :=
  let result := env.prechecks.1
  let err := env.prechecks.2
  if err.isSome ∨ result ≠ "SUCCESS" then
    some (newError ("Pre-checks failed! (Did you update the database upgrade code?) Result: " ++ result)
      (err.map AppError.render))
  else
    Option.none

/-- Embeds `CutRelease` as it appears in part_000 lines 22-68 (the
four-argument variant, whose post-release gate is `!backportRelease`). The
goroutine body is modelled by the actions it performs, collected in the
`BgTrace`; the first component is the value returned to the caller. -/
def CutRelease (env : CutEnv) (release rc : List Char)
    (isFirstMinorRelease backportRelease : Bool) : Option AppError × BgTrace :=
  let shortRelease := release.take (release.length - 2)
  let releaseBranch := ("release-").toList ++ shortRelease
  let fullRelease := if rc = [] then release else release ++ '-' :: rc
  match RunReleasePrechecks env with
  | some e => (some e, BgTrace.none)
  | Option.none =>
    let result := env.releaseJob.1
    let err := env.releaseJob.2
    let bg : BgTrace :=
      if err.isSome ∨ result ≠ "SUCCESS" then
        { BgTrace.none with releaseInvoked := true }
      else if ¬ backportRelease then
        { releaseInvoked := true, ciBranch := some releaseBranch,
          auxJobVersion := some fullRelease, preReleaseTarget := some fullRelease,
          preReleaseJobRun := true }
      else
        { BgTrace.none with releaseInvoked := true }
    (Option.none, bg)

/-- Modelled from the spec: server.go line 366 calls a five-argument
`CutRelease(releasePart, rcPart, isFirstMinorRelease, backport, dryrun)`, but
the sources only contain the four-argument variant above (src/unnamed/part_000
line 22), so the body that consumes the dryrun flag is missing from src. Per
the spec (release-cut workflow, step 2b), the post-release stage runs only
when the release job succeeded and the release is neither a backport nor a
dry run, while the prechecks always run for real. -/
def CutReleaseDryrun (env : CutEnv) (release rc : List Char)
    (isFirstMinorRelease backportRelease dryrunRelease : Bool) : Option AppError × BgTrace :=
  let shortRelease := release.take (release.length - 2)
  let releaseBranch := ("release-").toList ++ shortRelease
  let fullRelease := if rc = [] then release else release ++ '-' :: rc
  match RunReleasePrechecks env with
  | some e => (some e, BgTrace.none)
  | Option.none =>
    let result := env.releaseJob.1
    let err := env.releaseJob.2
    let bg : BgTrace :=
      if err.isSome ∨ result ≠ "SUCCESS" then
        { BgTrace.none with releaseInvoked := true }
      else if ¬ backportRelease ∧ ¬ dryrunRelease then
        { releaseInvoked := true, ciBranch := some releaseBranch,
          auxJobVersion := some fullRelease, preReleaseTarget := some fullRelease,
          preReleaseJobRun := true }
      else
        { BgTrace.none with releaseInvoked := true }
    (Option.none, bg)

/-- A CI job configuration document, abstracting the etree XML document to the
two elements `SetCIServerBranch` edits: the `defaultValue` parameter element
and the `upstreamProjects` trigger element (`none` models a missing element). -/
structure JobConfigDoc where
  defaultValue : Option String
  upstreamProjects : Option String
deriving DecidableEq, Repr

/-- Responses consumed by `SetCIServerBranch` for each job: fetching and
parsing the configuration, and saving it back. -/
structure CIEnv where
  fetch : String → Except AppError JobConfigDoc
  save : String → JobConfigDoc → Option AppError

/-- The per-job edit of `SetCIServerBranch` (part_000 lines 128-143): set the
default branch element to `branch`, and the upstream trigger to
`mattermost-enterprise` for `master` and to `mattermost-platform/<branch>`
otherwise; error if either element is absent. -/
def setCIJobDoc (serverjob : String) (branch : String) (doc : JobConfigDoc) :
    Except AppError JobConfigDoc :=
  match doc.defaultValue with
  | none => .error (newError ("Unable to correct default branch element for " ++ serverjob) none)
  | some _ =>
    match doc.upstreamProjects with
    | none => .error (newError ("Unable to correct build trigger element for " ++ serverjob) none)
    | some _ =>
      .ok { defaultValue := some branch,
            upstreamProjects :=
              some (if branch = "master" then "mattermost-enterprise"
                    else "mattermost-platform/" ++ branch) }

/-- Embeds `SetCIServerBranch` (part_000 lines 117-157): iterate over the
configured CI jobs, stopping at the first failure. The second component lists
each job together with the configuration passed to `SaveJobConfig` for it. -/
def SetCIServerBranch (env : CIEnv) (jobs : List String) (branch : String) :
    Option AppError × List (String × JobConfigDoc) :=
  match jobs with
  | [] => (none, [])
  | serverjob :: rest =>
    match env.fetch serverjob with
    | .error e => (some e, [])
    | .ok doc =>
      match setCIJobDoc serverjob branch doc with
      | .error e => (some e, [])
      | .ok doc2 =>
        match env.save serverjob doc2 with
        | some e =>
          (some (newError ("Unable to save job for " ++ serverjob) (some e.render)),
           [(serverjob, doc2)])
        | none =>
          let r := SetCIServerBranch env rest branch
          (r.1, (serverjob, doc2) :: r.2)

/-! Helper lemmas about the pattern matcher and list splitting. -/

theorem matchAtoms_anyChar_cons (ps : List PatAtom) (x : Char) (t : List Char) :
    matchAtoms (.anyChar :: ps) (x :: t) = matchAtoms ps t := by
  simp [matchAtoms]

theorem matchAtoms_lit_cons (d : Char) (ps : List PatAtom) (t : List Char) :
    matchAtoms (.lit d :: ps) (d :: t) = matchAtoms ps t := by
  simp [matchAtoms]

theorem matchAtoms_digits_prefix (a : List Char) (ps : List PatAtom) (t : List Char)
    (ha : a ≠ []) (ha2 : a.all Char.isDigit = true) (h : matchAtoms ps t = true) :
    matchAtoms (.digits :: ps) (a ++ t) = true := by
  induction a with
  | nil => exact absurd rfl ha
  | cons ch rest ih =>
    simp only [List.all_cons, Bool.and_eq_true] at ha2
    by_cases hr : rest = []
    · subst hr
      simp [matchAtoms, ha2.1, h]
    · have hrec := ih hr ha2.2
      simp [matchAtoms, ha2.1, hrec]

theorem matchAtoms_lit_mem (c : Char) :
    ∀ (l : List Char) (ps : List PatAtom),
      matchAtoms ps l = true → PatAtom.lit c ∈ ps → c ∈ l := by
  intro l
  induction l with
  | nil =>
    intro ps h hm
    cases ps with
    | nil => simp at hm
    | cons p ps => simp [matchAtoms] at h
  | cons x t ih =>
    intro ps h hm
    cases ps with
    | nil => simp at hm
    | cons p ps =>
      cases p with
      | digits =>
        simp only [matchAtoms, Bool.and_eq_true, Bool.or_eq_true] at h
        have hm' : PatAtom.lit c ∈ ps := by
          rcases List.mem_cons.mp hm with h1 | h1
          · exact absurd h1 (by simp)
          · exact h1
        rcases h.2 with h2 | h2
        · exact List.mem_cons_of_mem _ (ih ps h2 hm')
        · exact List.mem_cons_of_mem _ (ih (.digits :: ps) h2 hm)
      | anyChar =>
        simp only [matchAtoms] at h
        have hm' : PatAtom.lit c ∈ ps := by
          rcases List.mem_cons.mp hm with h1 | h1
          · exact absurd h1 (by simp)
          · exact h1
        exact List.mem_cons_of_mem _ (ih ps h hm')
      | lit d =>
        simp only [matchAtoms, Bool.and_eq_true, beq_iff_eq] at h
        obtain ⟨hxd, hrest⟩ := h
        rcases List.mem_cons.mp hm with h1 | h1
        · have hcd : c = d := by injection h1
          subst hcd
          subst hxd
          exact List.mem_cons_self _ _
        · exact List.mem_cons_of_mem _ (ih ps hrest h1)

theorem not_mem_of_all_digits (a : List Char) (ha : a.all Char.isDigit = true)
    (c : Char) (hc : c.isDigit = false) : c ∉ a := by
  intro hm
  have := List.all_eq_true.mp ha c hm
  rw [hc] at this
  exact absurd this (by simp)

theorem isDigit_ne_of_not_digit (c x : Char) (h : c.isDigit = true)
    (hx : x.isDigit = false) : c ≠ x := by
  intro he
  subst he
  rw [h] at hx
  exact absurd hx (by simp)

theorem splitOn_sep_append (sep : Char) (xs ys : List Char)
    (hx : sep ∉ xs) (hy : sep ∉ ys) :
    (xs ++ sep :: ys).splitOn sep = [xs, ys] := by
  have hx' : ∀ x ∈ xs, ¬((x == sep) = true) := by
    intro x hmem hbe
    exact hx (beq_iff_eq.mp hbe ▸ hmem)
  have hy' : ∀ x ∈ ys, ¬((x == sep) = true) := by
    intro x hmem hbe
    exact hy (beq_iff_eq.mp hbe ▸ hmem)
  unfold List.splitOn
  rw [List.splitOnP_first _ _ hx' sep (by simp) ys]
  rw [List.splitOnP_eq_single _ _ hy']

theorem splitOn_two_seps (sep : Char) (xs ys zs : List Char)
    (hx : sep ∉ xs) (hy : sep ∉ ys) (hz : sep ∉ zs) :
    (xs ++ sep :: (ys ++ sep :: zs)).splitOn sep = [xs, ys, zs] := by
  have hx' : ∀ x ∈ xs, ¬((x == sep) = true) := by
    intro x hmem hbe
    exact hx (beq_iff_eq.mp hbe ▸ hmem)
  unfold List.splitOn
  rw [List.splitOnP_first _ _ hx' sep (by simp) _]
  have := splitOn_sep_append sep ys zs hy hz
  unfold List.splitOn at this
  rw [this]

/-! Helper lemmas about the poller. -/

theorem completionLoop_replicate (k : Nat) (r : String) (rest : List BuildPhase) :
    completionLoop (List.replicate k .running ++ .finished r :: rest) = (some r, compEvs k) := by
  induction k with
  | zero => simp [completionLoop, compEvs]
  | succ n ih => simp [List.replicate_succ, completionLoop, compEvs, ih]

theorem compEvs_countP (k : Nat) : (compEvs k).countP Ev.isCompletionPoll = k + 1 := by
  induction k with
  | zero => simp [compEvs, List.countP_cons, Ev.isCompletionPoll]
  | succ n ih => simp [compEvs, List.countP_cons, Ev.isCompletionPoll, ih]

theorem reachLoop_ok_first (polls : Nat → PollResult) (bn : Nat)
    (h : pollOkB (polls 0) = true) :
    reachLoop polls bn = (.ok 1, [.reachPoll]) := by
  simp [reachLoop, reachAux, h]

theorem reachLoop_fail4_ok5 (polls : Nat → PollResult) (bn : Nat)
    (h0 : pollOkB (polls 0) = false) (h1 : pollOkB (polls 1) = false)
    (h2 : pollOkB (polls 2) = false) (h3 : pollOkB (polls 3) = false)
    (h4 : pollOkB (polls 4) = true) :
    reachLoop polls bn = (.ok 5,
      [.reachPoll, .reachPoll, .sleep 1, .reachPoll, .sleep 2,
       .reachPoll, .sleep 3, .reachPoll, .sleep 4]) := by
  rw [reachLoop]
  rw [reachAux]
  simp only [h0, h1, h2, h3, h4, Bool.false_eq_true, if_false]
  rw [reachAux]
  simp only [h0, h1, h2, h3, h4, Bool.false_eq_true, if_false]
  rw [reachAux]
  simp only [h0, h1, h2, h3, h4, Bool.false_eq_true, if_false]
  rw [reachAux]
  simp only [h0, h1, h2, h3, h4, Bool.false_eq_true, if_false]
  rw [reachAux]
  simp [h4]

theorem reachLoop_all_fail (polls : Nat → PollResult) (bn : Nat)
    (h : ∀ i < 6, pollOkB (polls i) = false) :
    reachLoop polls bn = (.error (newError
        ("Unable to get build for pre-checks job: " ++ toString bn) (pollParent (polls 5))),
      [.reachPoll, .reachPoll, .sleep 1, .reachPoll, .sleep 2,
       .reachPoll, .sleep 3, .reachPoll, .sleep 4, .reachPoll]) := by
  have h0 := h 0 (by omega)
  have h1 := h 1 (by omega)
  have h2 := h 2 (by omega)
  have h3 := h 3 (by omega)
  have h4 := h 4 (by omega)
  rw [reachLoop]
  rw [reachAux]
  simp only [h0, h1, h2, h3, h4, Bool.false_eq_true, if_false]
  rw [reachAux]
  simp only [h0, h1, h2, h3, h4, Bool.false_eq_true, if_false]
  rw [reachAux]
  simp only [h0, h1, h2, h3, h4, Bool.false_eq_true, if_false]
  rw [reachAux]
  simp only [h0, h1, h2, h3, h4, Bool.false_eq_true, if_false]
  rw [reachAux]
  simp [h4]

/-! Claim theorems. -/

/-- C1: for every job name and parameter map, the reachability loop of
`RunJobWaitForResult` retries as specified: when the per-build poll fails on
the first four attempts and succeeds on the fifth, the function proceeds to
the completion wait and returns its result; when every poll attempt fails, it
returns the unreachable-build error after at most five retry attempts, with
the backoff sleeps of `tries * 1` second between attempts. -/
theorem c1_reachability_retry (name : String) (params : List (String × String))
    (envA envB : JenkinsEnv) (r : String)
    (hA1 : envA.lookup = none) (hA2 : envA.invokeErr = none)
    (hA3 : ∀ i < 4, pollOkB (envA.reachPolls i) = false)
    (hA4 : pollOkB (envA.reachPolls 4) = true)
    (hA5 : (completionLoop envA.phases).1 = some r)
    (hB1 : envB.lookup = none) (hB2 : envB.invokeErr = none)
    (hB3 : ∀ i < 6, pollOkB (envB.reachPolls i) = false) :
    (RunJobWaitForResult name params envA).1 = .finished r ∧
    (RunJobWaitForResult name params envB).1 = .appErr (newError
      ("Unable to get build for pre-checks job: " ++ toString envB.buildNumber)
      (pollParent (envB.reachPolls 5))) ∧
    (RunJobWaitForResult name params envB).2 =
      [.invoke, .reachPoll, .reachPoll, .sleep 1, .reachPoll, .sleep 2,
       .reachPoll, .sleep 3, .reachPoll, .sleep 4, .reachPoll] := by
  have hA0 := hA3 0 (by omega)
  have hA1' := hA3 1 (by omega)
  have hA2' := hA3 2 (by omega)
  have hA3' := hA3 3 (by omega)
  have reachA := reachLoop_fail4_ok5 envA.reachPolls envA.buildNumber hA0 hA1' hA2' hA3' hA4
  have reachB := reachLoop_all_fail envB.reachPolls envB.buildNumber hB3
  refine ⟨?_, ?_, ?_⟩
  · rw [RunJobWaitForResult, hA1]
    rw [hA2]
    rw [reachA]
    rcases hc : completionLoop envA.phases with ⟨res, evs⟩
    rw [hc] at hA5
    simp at hA5
    simp [hc, hA5]
  · rw [RunJobWaitForResult, hB1]
    rw [hB2]
    rw [reachB]
  · rw [RunJobWaitForResult, hB1]
    rw [hB2]
    rw [reachB]

/-- Witness for C1 at a concrete environment pair. -/
theorem c1_reachability_retry_witness :
    (RunJobWaitForResult "job" []
      ⟨none, none, 7, fun i => if i = 4 then .ok 200 else .err "no build",
       [.finished "SUCCESS"]⟩).1 = .finished "SUCCESS" ∧
    (RunJobWaitForResult "job" []
      ⟨none, none, 7, fun _ => .err "no build", []⟩).1 = .appErr (newError
      ("Unable to get build for pre-checks job: " ++ toString 7) (some "no build")) ∧
    (RunJobWaitForResult "job" []
      ⟨none, none, 7, fun _ => .err "no build", []⟩).2 =
      [.invoke, .reachPoll, .reachPoll, .sleep 1, .reachPoll, .sleep 2,
       .reachPoll, .sleep 3, .reachPoll, .sleep 4, .reachPoll] := by
  have h := c1_reachability_retry "job" []
    ⟨none, none, 7, fun i => if i = 4 then .ok 200 else .err "no build", [.finished "SUCCESS"]⟩
    ⟨none, none, 7, fun _ => .err "no build", []⟩ "SUCCESS"
    rfl rfl (by decide) (by decide) (by simp [completionLoop]) rfl rfl (by decide)
  simpa using h

/-- C5: once reachable, the poller sleeps the fixed five-second grace period
and then polls once per second until the build is no longer running, returning
the terminal result; with `k` running observations before a finished one it
performs exactly `k + 1` completion polls. -/
theorem c5_completion_loop (name : String) (params : List (String × String))
    (env : JenkinsEnv) (k : Nat) (r : String) (rest : List BuildPhase)
    (h1 : env.lookup = none) (h2 : env.invokeErr = none)
    (h3 : pollOkB (env.reachPolls 0) = true)
    (h4 : env.phases = List.replicate k .running ++ .finished r :: rest) :
    RunJobWaitForResult name params env =
      (.finished r, .invoke :: .reachPoll :: .sleep 5 :: compEvs k) ∧
    (compEvs k).countP Ev.isCompletionPoll = k + 1 := by
  constructor
  · rw [RunJobWaitForResult, h1]
    rw [h2]
    rw [reachLoop_ok_first env.reachPolls env.buildNumber h3]
    rw [h4, completionLoop_replicate]
    rfl
  · exact compEvs_countP k

/-- Witness for C5: three `Running` observations then `Finished(SUCCESS)`
yield "SUCCESS" with four completion polls (at least three). -/
theorem c5_completion_loop_witness :
    RunJobWaitForResult "job" []
      ⟨none, none, 7, fun _ => .ok 200,
       [.running, .running, .running, .finished "SUCCESS"]⟩ =
      (.finished "SUCCESS", .invoke :: .reachPoll :: .sleep 5 :: compEvs 3) ∧
    (compEvs 3).countP Ev.isCompletionPoll = 3 + 1 := by
  exact c5_completion_loop "job" []
    ⟨none, none, 7, fun _ => .ok 200, [.running, .running, .running, .finished "SUCCESS"]⟩
    3 "SUCCESS" [] rfl rfl (by decide) (by decide)

/-- C10: when the job lookup succeeded and the subsequent invoke (or config
update) fails, the returned `AppError` wraps the nil error of the lookup
instead of the actual failure: its parent is `none` and its rendered message
is a fixed string that never mentions the underlying cause, whatever that
cause was. -/
theorem c10_invoke_error_wraps_nil (name : String) (params : List (String × String))
    (config : String) (env1 : JenkinsEnv) (env2 : InvokeEnv) (env3 : SaveEnv)
    (m1 m2 m3 : String)
    (h1 : env1.lookup = none) (h2 : env1.invokeErr = some m1)
    (h3 : env2.lookup = none) (h4 : env2.invokeErr = some m2)
    (h5 : env3.lookup = none) (h6 : env3.updateErr = some m3) :
    (RunJobWaitForResult name params env1).1 = .appErr (newError "Unable to envoke job." none) ∧
    RunJobParameters name params env2 = some (newError "Unable to envoke job." none) ∧
    SaveJobConfig name config env3 = some (newError "Unable to update job config" none) ∧
    (newError "Unable to envoke job." none).parent = none ∧
    (newError "Unable to envoke job." none).render = "Unable to envoke job." ∧
    (newError "Unable to update job config" none).render = "Unable to update job config" := by
  refine ⟨?_, ?_, ?_, rfl, rfl, rfl⟩
  · rw [RunJobWaitForResult, h1]
    rw [h2]
  · rw [RunJobParameters, h3]
    rw [h4]
  · rw [SaveJobConfig, h5]
    rw [h6]

/-- Witness for C10 at concrete environments whose failures carry a message
that does not appear in the rendered error. -/
theorem c10_invoke_error_wraps_nil_witness :
    (RunJobWaitForResult "job" [] ⟨none, some "connection refused", 7, fun _ => .ok 200, []⟩).1 =
      .appErr (newError "Unable to envoke job." none) ∧
    RunJobParameters "job" [] ⟨none, some "connection refused"⟩ =
      some (newError "Unable to envoke job." none) ∧
    SaveJobConfig "job" "cfg" ⟨none, some "disk full"⟩ =
      some (newError "Unable to update job config" none) ∧
    (newError "Unable to envoke job." none).parent = none ∧
    (newError "Unable to envoke job." none).render = "Unable to envoke job." ∧
    (newError "Unable to update job config" none).render = "Unable to update job config" := by
  exact c10_invoke_error_wraps_nil "job" [] "cfg"
    ⟨none, some "connection refused", 7, fun _ => .ok 200, []⟩
    ⟨none, some "connection refused"⟩ ⟨none, some "disk full"⟩
    "connection refused" "connection refused" "disk full" rfl rfl rfl rfl rfl rfl

/-- C2 counterexample: a caller who passes the token and user checks and is
absent from the release-user set is not rejected although the action requested
in the text is the release cut — the stricter check inspects the `command`
form field (here the slash-command trigger), not the action parsed from the
text, so the claimed "exactly when the requested action is cut-release" fails. -/
theorem c2_counterexample :
    checkSlashPermissions ⟨["tok"], ["alice"], []⟩
      ⟨"chan", "channel", "/matterbuild", "team", "tid", "cut 5.3.0", "tok", "alice", "Alice"⟩ =
      none ∧
    slashCommandAuth ⟨["tok"], ["alice"], []⟩
      ⟨"chan", "channel", "/matterbuild", "team", "tid", "cut 5.3.0", "tok", "alice", "Alice"⟩ =
      .dispatched (some ['c', 'u', 't']) ∧
    (([] : List String).contains "alice") = false := by
  exact ⟨rfl, rfl, rfl⟩

/-- C2 amended: authorization is evaluated in order with short-circuiting —
token first, then user id — but the additional release-user check is keyed on
the `command` form field being exactly `"cut"`, independently of the action
parsed from the text: a caller passing the first two checks is rejected iff
the command field is `"cut"` and they are absent from the release-user set,
and the check does not depend on the text at all. -/
theorem c2_release_gate (cfg : ServerConfig) (cA cB cC : MMSlashCommand)
    (hA : cfg.allowedTokens.contains cA.token = false)
    (hB1 : cfg.allowedTokens.contains cB.token = true)
    (hB2 : cfg.allowedUsers.contains cB.userId = false)
    (hC1 : cfg.allowedTokens.contains cC.token = true)
    (hC2 : cfg.allowedUsers.contains cC.userId = true) :
    checkSlashPermissions cfg cA = some (newError "Token for slash command is incorrect" none) ∧
    checkSlashPermissions cfg cB =
      some (newError "You don\x27t have permissions to use this command." none) ∧
    (checkSlashPermissions cfg cC = none ↔
      ¬(cC.command = "cut" ∧ cfg.releaseUsers.contains cC.userId = false)) ∧
    (∀ t, checkSlashPermissions cfg { cC with text := t } = checkSlashPermissions cfg cC) := by
  have hA' : cA.token ∉ cfg.allowedTokens := by simpa using hA
  have hB1' : cB.token ∈ cfg.allowedTokens := by simpa using hB1
  have hB2' : cB.userId ∉ cfg.allowedUsers := by simpa using hB2
  have hC1' : cC.token ∈ cfg.allowedTokens := by simpa using hC1
  have hC2' : cC.userId ∈ cfg.allowedUsers := by simpa using hC2
  refine ⟨?_, ?_, ?_, fun t => rfl⟩
  · simp [checkSlashPermissions, hA']
  · simp [checkSlashPermissions, hB1', hB2']
  · simp only [checkSlashPermissions]
    split_ifs with h1
    · constructor
      · intro he
        exact absurd he (by simp)
      · intro hr
        exact absurd ⟨h1.1, by simpa using h1.2⟩ hr
    · constructor
      · intro _ hco
        exact h1 ⟨hco.1, by simpa using hco.2⟩
      · intro _
        rfl

/-- Witness for the C2 amended theorem at concrete configuration and
requests. -/
theorem c2_release_gate_witness :
    checkSlashPermissions ⟨["tok"], ["alice"], ["bob"]⟩
      ⟨"", "", "cut", "", "", "cut 5.3.0", "bad", "alice", "Alice"⟩ =
      some (newError "Token for slash command is incorrect" none) ∧
    checkSlashPermissions ⟨["tok"], ["alice"], ["bob"]⟩
      ⟨"", "", "cut", "", "", "cut 5.3.0", "tok", "eve", "Eve"⟩ =
      some (newError "You don\x27t have permissions to use this command." none) ∧
    (checkSlashPermissions ⟨["tok"], ["alice"], ["bob"]⟩
      ⟨"", "", "cut", "", "", "cut 5.3.0", "tok", "alice", "Alice"⟩ = none ↔
      ¬((⟨"", "", "cut", "", "", "cut 5.3.0", "tok", "alice", "Alice"⟩ :
          MMSlashCommand).command = "cut" ∧
        (["bob"] : List String).contains "alice" = false)) ∧
    (∀ t, checkSlashPermissions ⟨["tok"], ["alice"], ["bob"]⟩
      { (⟨"", "", "cut", "", "", "cut 5.3.0", "tok", "alice", "Alice"⟩ :
          MMSlashCommand) with text := t } =
      checkSlashPermissions ⟨["tok"], ["alice"], ["bob"]⟩
        ⟨"", "", "cut", "", "", "cut 5.3.0", "tok", "alice", "Alice"⟩) := by
  exact c2_release_gate ⟨["tok"], ["alice"], ["bob"]⟩
    ⟨"", "", "cut", "", "", "cut 5.3.0", "bad", "alice", "Alice"⟩
    ⟨"", "", "cut", "", "", "cut 5.3.0", "tok", "eve", "Eve"⟩
    ⟨"", "", "cut", "", "", "cut 5.3.0", "tok", "alice", "Alice"⟩
    rfl rfl rfl rfl rfl

/-- C3 counterexample: `12345` matches neither spec grammar (no literal dots),
yet the unescaped dots of `finalVersionRxp` accept it, and with the backport
flag set the handler proceeds to call `CutRelease` — no validation error and a
remote job invocation, contradicting the claim. -/
theorem c3_counterexample :
    matchAtoms specFinalGrammar ['1', '2', '3', '4', '5'] = false ∧
    matchAtoms specRcGrammar ['1', '2', '3', '4', '5'] = false ∧
    cutReleaseCommandF ⟨fun _ => none, none⟩ [['1', '2', '3', '4', '5']] true false =
      (.released ['1', '2', '3', '4', '5'],
       ⟨none, some (['1', '2', '3', '4', '5'], [], false, true, false)⟩) := by
  exact ⟨by decide, by decide, rfl⟩

/-- C3 amended: for every version string rejected by both of the code's
regexes (whose unescaped `.` matches any single character), the cut-release
handler writes the validation error and makes zero remote calls: no probe is
issued and `CutRelease` is not invoked. -/
theorem c3_rejects_unmatched (env : CutCmdEnv) (args : List (List Char))
    (v : List Char) (rest : List (List Char)) (backport dryrun : Bool)
    (h0 : args = v :: rest)
    (h1 : matchAtoms rcRxp v = false) (h2 : matchAtoms finalVersionRxp v = false) :
    cutReleaseCommandF env args backport dryrun =
      (.wroteError (newError "Bad version argument. Typo? If not the regex might be broken. If so be more careful!!" none),
       ⟨none, none⟩) := by
  subst h0
  have hp : parseVersion v = .error
      (newError "Bad version argument. Typo? If not the regex might be broken. If so be more careful!!" none) := by
    simp [parseVersion, h1, h2]
  simp [cutReleaseCommandF, hp]

/-- Witness for the C3 amended theorem at `v5.3`. -/
theorem c3_rejects_unmatched_witness :
    cutReleaseCommandF ⟨fun _ => none, none⟩ [['v', '5', '.', '3']] false false =
      (.wroteError (newError "Bad version argument. Typo? If not the regex might be broken. If so be more careful!!" none),
       ⟨none, none⟩) := by
  exact c3_rejects_unmatched ⟨fun _ => none, none⟩ [['v', '5', '.', '3']]
    ['v', '5', '.', '3'] [] false false rfl (by decide) (by decide)

/-- Helper: the release part built from three digit components contains no
occurrence of a non-digit, non-dot character. -/
theorem char_not_mem_release (a b c : List Char)
    (ha2 : a.all Char.isDigit = true) (hb2 : b.all Char.isDigit = true)
    (hc2 : c.all Char.isDigit = true) (x : Char)
    (hx1 : x.isDigit = false) (hx2 : x ≠ '.') :
    x ∉ (a ++ '.' :: (b ++ '.' :: c)) := by
  intro hm
  simp only [List.mem_append, List.mem_cons] at hm
  rcases hm with h | h | h | h | h
  · exact not_mem_of_all_digits a ha2 x hx1 h
  · exact hx2 h
  · exact not_mem_of_all_digits b hb2 x hx1 h
  · exact hx2 h
  · exact not_mem_of_all_digits c hc2 x hx1 h

/-- Helper: a version built from three nonempty digit components separated by
dots is accepted by `finalVersionRxp`. -/
theorem matchAtoms_final_of_digits (a b c : List Char)
    (ha : a ≠ []) (ha2 : a.all Char.isDigit = true)
    (hb : b ≠ []) (hb2 : b.all Char.isDigit = true)
    (hc : c ≠ []) (hc2 : c.all Char.isDigit = true) :
    matchAtoms finalVersionRxp (a ++ '.' :: (b ++ '.' :: c)) = true := by
  have h4 : matchAtoms [.digits] c = true := by
    have := matchAtoms_digits_prefix c [] [] hc hc2 (by rfl)
    simpa using this
  have h3 : matchAtoms [.anyChar, .digits] ('.' :: c) = true := by
    rw [matchAtoms_anyChar_cons]
    exact h4
  have h2' : matchAtoms [.digits, .anyChar, .digits] (b ++ '.' :: c) = true :=
    matchAtoms_digits_prefix b _ _ hb hb2 h3
  have h1' : matchAtoms [.anyChar, .digits, .anyChar, .digits] ('.' :: (b ++ '.' :: c)) = true := by
    rw [matchAtoms_anyChar_cons]
    exact h2'
  exact matchAtoms_digits_prefix a _ _ ha ha2 h1'

/-- Helper: appending `-rcN` to such a release part is accepted by `rcRxp`. -/
theorem matchAtoms_rc_of_digits (a b c n : List Char)
    (ha : a ≠ []) (ha2 : a.all Char.isDigit = true)
    (hb : b ≠ []) (hb2 : b.all Char.isDigit = true)
    (hc : c ≠ []) (hc2 : c.all Char.isDigit = true)
    (hn : n ≠ []) (hn2 : n.all Char.isDigit = true) :
    matchAtoms rcRxp (a ++ '.' :: (b ++ '.' :: c) ++ '-' :: 'r' :: 'c' :: n) = true := by
  have h8 : matchAtoms [.digits] n = true := by
    have := matchAtoms_digits_prefix n [] [] hn hn2 (by rfl)
    simpa using this
  have h7 : matchAtoms [.lit 'c', .digits] ('c' :: n) = true := by
    rw [matchAtoms_lit_cons]
    exact h8
  have h6 : matchAtoms [.lit 'r', .lit 'c', .digits] ('r' :: 'c' :: n) = true := by
    rw [matchAtoms_lit_cons]
    exact h7
  have h5 : matchAtoms [.lit '-', .lit 'r', .lit 'c', .digits] ('-' :: 'r' :: 'c' :: n) = true := by
    rw [matchAtoms_lit_cons]
    exact h6
  have h4 : matchAtoms [.digits, .lit '-', .lit 'r', .lit 'c', .digits]
      (c ++ '-' :: 'r' :: 'c' :: n) = true :=
    matchAtoms_digits_prefix c _ _ hc hc2 h5
  have h3 : matchAtoms [.anyChar, .digits, .lit '-', .lit 'r', .lit 'c', .digits]
      ('.' :: (c ++ '-' :: 'r' :: 'c' :: n)) = true := by
    rw [matchAtoms_anyChar_cons]
    exact h4
  have h2' : matchAtoms [.digits, .anyChar, .digits, .lit '-', .lit 'r', .lit 'c', .digits]
      (b ++ '.' :: (c ++ '-' :: 'r' :: 'c' :: n)) = true :=
    matchAtoms_digits_prefix b _ _ hb hb2 h3
  have h1' : matchAtoms [.anyChar, .digits, .anyChar, .digits, .lit '-', .lit 'r', .lit 'c', .digits]
      ('.' :: (b ++ '.' :: (c ++ '-' :: 'r' :: 'c' :: n))) = true := by
    rw [matchAtoms_anyChar_cons]
    exact h2'
  have hmain : matchAtoms rcRxp
      (a ++ '.' :: (b ++ '.' :: (c ++ '-' :: 'r' :: 'c' :: n))) = true :=
    matchAtoms_digits_prefix a _ _ ha ha2 h1'
  simpa [List.append_assoc] using hmain

/-- Helper: the release part of a digit version is rejected by `rcRxp`
(the pattern demands a literal `r` that a digits-and-dots string cannot
contain). -/
theorem matchAtoms_rc_false_of_digits (a b c : List Char)
    (ha2 : a.all Char.isDigit = true) (hb2 : b.all Char.isDigit = true)
    (hc2 : c.all Char.isDigit = true) :
    matchAtoms rcRxp (a ++ '.' :: (b ++ '.' :: c)) = false := by
  cases hm : matchAtoms rcRxp (a ++ '.' :: (b ++ '.' :: c)) with
  | false => rfl
  | true =>
    have hr : 'r' ∈ (a ++ '.' :: (b ++ '.' :: c)) :=
      matchAtoms_lit_mem 'r' _ rcRxp hm (by decide)
    exact absurd hr (char_not_mem_release a b c ha2 hb2 hc2 'r' (by decide) (by decide))

/-- C4: parsing of accepted version strings. A `D.D.D` version yields the
whole string as release part, an empty rc part and a false first-minor flag;
a `D.D.D-rcN` version is split on the dash and the flag is the conjunction
`rcPart == "rc1" && releasePart ends in ".0"`. -/
theorem c4_parse_accepted (a b c n : List Char)
    (ha : a ≠ []) (ha2 : a.all Char.isDigit = true)
    (hb : b ≠ []) (hb2 : b.all Char.isDigit = true)
    (hc : c ≠ []) (hc2 : c.all Char.isDigit = true)
    (hn : n ≠ []) (hn2 : n.all Char.isDigit = true) :
    parseVersion (a ++ '.' :: (b ++ '.' :: c)) =
      .ok (a ++ '.' :: (b ++ '.' :: c), [], false) ∧
    parseVersion (a ++ '.' :: (b ++ '.' :: c) ++ '-' :: 'r' :: 'c' :: n) =
      .ok (a ++ '.' :: (b ++ '.' :: c), 'r' :: 'c' :: n,
        ((('r' :: 'c' :: n : List Char) == ['r', 'c', '1']) &&
          List.isSuffixOf ['.', '0'] (a ++ '.' :: (b ++ '.' :: c)))) := by
  constructor
  · have hrc := matchAtoms_rc_false_of_digits a b c ha2 hb2 hc2
    have hfin := matchAtoms_final_of_digits a b c ha ha2 hb hb2 hc hc2
    simp [parseVersion, hrc, hfin]
  · have hm2 := matchAtoms_rc_of_digits a b c n ha ha2 hb hb2 hc hc2 hn hn2
    have hdash : '-' ∉ (a ++ '.' :: (b ++ '.' :: c)) :=
      char_not_mem_release a b c ha2 hb2 hc2 '-' (by decide) (by decide)
    have hdash2 : '-' ∉ ('r' :: 'c' :: n) := by
      intro hm
      simp only [List.mem_cons] at hm
      rcases hm with h | h | h
      · exact absurd h (by decide)
      · exact absurd h (by decide)
      · exact not_mem_of_all_digits n hn2 '-' (by decide) h
    have hsplit := splitOn_sep_append '-' (a ++ '.' :: (b ++ '.' :: c)) ('r' :: 'c' :: n)
      hdash hdash2
    have hm2' : matchAtoms rcRxp (a ++ '.' :: (b ++ '.' :: (c ++ '-' :: 'r' :: 'c' :: n))) =
        true := by
      simpa [List.append_assoc] using hm2
    have hsplit' : List.splitOn '-' (a ++ '.' :: (b ++ '.' :: (c ++ '-' :: 'r' :: 'c' :: n))) =
        [a ++ '.' :: (b ++ '.' :: c), 'r' :: 'c' :: n] := by
      simpa [List.append_assoc] using hsplit
    simp [parseVersion, hm2', hsplit']

/-- Witness for C4 at `5.3.0` and `5.3.0-rc1`. -/
theorem c4_parse_accepted_witness :
    parseVersion (['5'] ++ '.' :: (['3'] ++ '.' :: ['0'])) =
      .ok (['5'] ++ '.' :: (['3'] ++ '.' :: ['0']), [], false) ∧
    parseVersion (['5'] ++ '.' :: (['3'] ++ '.' :: ['0']) ++ '-' :: 'r' :: 'c' :: ['1']) =
      .ok (['5'] ++ '.' :: (['3'] ++ '.' :: ['0']), 'r' :: 'c' :: ['1'],
        ((('r' :: 'c' :: ['1'] : List Char) == ['r', 'c', '1']) &&
          List.isSuffixOf ['.', '0'] (['5'] ++ '.' :: (['3'] ++ '.' :: ['0'])))) := by
  exact c4_parse_accepted ['5'] ['3'] ['0'] ['1']
    (by decide) (by decide) (by decide) (by decide)
    (by decide) (by decide) (by decide) (by decide)

/-- Helper: `goAtoi` on a nonempty in-range digit string returns its value. -/
theorem goAtoi_digits (l : List Char) (h : l ≠ []) (h2 : l.all Char.isDigit = true)
    (h3 : (natOfDigits l : Int) ≤ 2 ^ 63 - 1) : goAtoi l = some (natOfDigits l) := by
  cases l with
  | nil => exact absurd rfl h
  | cons ch t =>
    have hch : ch.isDigit = true := by
      have := List.all_eq_true.mp h2 ch (List.mem_cons_self ch t)
      simpa using this
    have hp : ch ≠ '+' := isDigit_ne_of_not_digit ch '+' hch (by decide)
    have hm : ch ≠ '-' := isDigit_ne_of_not_digit ch '-' hch (by decide)
    simp only [goAtoi, hp, hm, if_false, h2]
    rw [if_neg (by simp)]
    rw [if_neg (by push_cast; omega)]
    simp

/-- Helper: `RunReleasePrechecks` fails exactly as the condition says. -/
theorem runReleasePrechecks_fail (env : CutEnv)
    (h : env.prechecks.2.isSome = true ∨ env.prechecks.1 ≠ "SUCCESS") :
    RunReleasePrechecks env = some (newError
      ("Pre-checks failed! (Did you update the database upgrade code?) Result: " ++ env.prechecks.1)
      (env.prechecks.2.map AppError.render)) := by
  simp only [RunReleasePrechecks]
  rw [if_pos h]

/-- Helper: `RunReleasePrechecks` succeeds on SUCCESS with no error. -/
theorem runReleasePrechecks_ok (env : CutEnv)
    (h1 : env.prechecks.1 = "SUCCESS") (h2 : env.prechecks.2 = none) :
    RunReleasePrechecks env = none := by
  simp only [RunReleasePrechecks]
  rw [if_neg (by simp [h1, h2])]

/-- C6: `CutRelease` runs the prechecks job synchronously first; when it does
not report SUCCESS (or errors) the failure is returned to the caller and the
release job is never invoked, and when prechecks pass `CutRelease` returns nil
unconditionally — whatever the detached continuation encounters, no error of
it appears in the return value. -/
theorem c6_prechecks_gate (envA envB : CutEnv) (release rc : List Char)
    (isFirstMinorRelease backportRelease : Bool)
    (hA : envA.prechecks.2.isSome = true ∨ envA.prechecks.1 ≠ "SUCCESS")
    (hB1 : envB.prechecks.1 = "SUCCESS") (hB2 : envB.prechecks.2 = none) :
    (CutRelease envA release rc isFirstMinorRelease backportRelease).1 =
      some (newError ("Pre-checks failed! (Did you update the database upgrade code?) Result: "
        ++ envA.prechecks.1) (envA.prechecks.2.map AppError.render)) ∧
    (CutRelease envA release rc isFirstMinorRelease backportRelease).2 = BgTrace.none ∧
    (CutRelease envB release rc isFirstMinorRelease backportRelease).1 = none := by
  have hpreA := runReleasePrechecks_fail envA hA
  have hpreB := runReleasePrechecks_ok envB hB1 hB2
  refine ⟨?_, ?_, ?_⟩
  · simp [CutRelease, hpreA]
  · simp [CutRelease, hpreA]
  · simp [CutRelease, hpreB]

/-- Witness for C6: failing prechecks abort, passing prechecks acknowledge
even though the release job afterwards fails. -/
theorem c6_prechecks_gate_witness :
    (CutRelease ⟨("FAILURE", none), ("SUCCESS", none)⟩
      ("5.3.0").toList ("rc1").toList true false).1 =
      some (newError ("Pre-checks failed! (Did you update the database upgrade code?) Result: "
        ++ ("FAILURE", (none : Option AppError)).1)
        ((("FAILURE", (none : Option AppError)).2).map AppError.render)) ∧
    (CutRelease ⟨("FAILURE", none), ("SUCCESS", none)⟩
      ("5.3.0").toList ("rc1").toList true false).2 = BgTrace.none ∧
    (CutRelease ⟨("SUCCESS", none), ("FAILURE", some (newError "boom" none))⟩
      ("5.3.0").toList ("rc1").toList true false).1 = none := by
  exact c6_prechecks_gate
    ⟨("FAILURE", none), ("SUCCESS", none)⟩
    ⟨("SUCCESS", none), ("FAILURE", some (newError "boom" none))⟩
    ("5.3.0").toList ("rc1").toList true false
    (by simp) rfl rfl

/-- C7: when the backport flag is false the handler computes the next minor
version `MAJOR.(MINOR+1).0` from the release part and probes the rc1 artifact
URL for it; a 200 response refuses the cut with the warning and `CutRelease`
is not invoked. When the backport flag is true no probe is made and the cut
proceeds. -/
theorem c7_backport_guard (env200 envAny : CutCmdEnv) (v rel rc : List Char)
    (fm dryrun : Bool) (a b c : List Char)
    (ha2 : a.all Char.isDigit = true)
    (hb : b ≠ []) (hb2 : b.all Char.isDigit = true)
    (hc2 : c.all Char.isDigit = true)
    (hparse : parseVersion v = .ok (rel, rc, fm))
    (hrel : rel = a ++ '.' :: (b ++ '.' :: c))
    (hrange : (natOfDigits b : Int) + 1 ≤ 2 ^ 63 - 1)
    (hprobe : env200.probe
      (s3Url (a ++ '.' :: (goItoa ((natOfDigits b : Int) + 1) ++ '.' :: ['0']))) = some 200) :
    cutReleaseCommandF env200 [v] false dryrun =
      (.wroteError (newError
        ("Are you sure this isn\x27t a backport release? I see a future release on s3. ("
          ++ String.mk (a ++ '.' :: (goItoa ((natOfDigits b : Int) + 1) ++ '.' :: ['0'])) ++ ")OK")
        none),
       ⟨some (s3Url (a ++ '.' :: (goItoa ((natOfDigits b : Int) + 1) ++ '.' :: ['0']))), none⟩) ∧
    (cutReleaseCommandF envAny [v] true dryrun).2.probed = none ∧
    (cutReleaseCommandF envAny [v] true dryrun).2.cutCalled = some (rel, rc, fm, true, dryrun) := by
  subst hrel
  have hdota : '.' ∉ a := not_mem_of_all_digits a ha2 '.' (by decide)
  have hdotb : '.' ∉ b := not_mem_of_all_digits b hb2 '.' (by decide)
  have hdotc : '.' ∉ c := not_mem_of_all_digits c hc2 '.' (by decide)
  have hsplit := splitOn_two_seps '.' a b c hdota hdotb hdotc
  have hatoi := goAtoi_digits b hb hb2 (by omega)
  have hadd : goIntAdd1 (natOfDigits b : Int) = (natOfDigits b : Int) + 1 := by
    rw [goIntAdd1, if_neg (by omega)]
  refine ⟨?_, ?_, ?_⟩
  · simp [cutReleaseCommandF, hparse, hsplit, hatoi, hadd, hprobe]
  · simp [cutReleaseCommandF, hparse]
  · simp [cutReleaseCommandF, hparse]

/-- Witness for C7 at version `5.3.0`: the probe targets `5.4.0-rc1` and a 200
refuses the cut; with the backport flag the probe is skipped. -/
theorem c7_backport_guard_witness :
    cutReleaseCommandF ⟨fun _ => some 200, none⟩ [("5.3.0").toList] false false =
      (.wroteError (newError
        ("Are you sure this isn\x27t a backport release? I see a future release on s3. ("
          ++ String.mk (['5'] ++ '.' :: (goItoa ((natOfDigits ['3'] : Int) + 1) ++ '.' :: ['0']))
          ++ ")OK") none),
       ⟨some (s3Url (['5'] ++ '.' :: (goItoa ((natOfDigits ['3'] : Int) + 1) ++ '.' :: ['0']))),
        none⟩) ∧
    (cutReleaseCommandF ⟨fun _ => none, none⟩ [("5.3.0").toList] true false).2.probed = none ∧
    (cutReleaseCommandF ⟨fun _ => none, none⟩ [("5.3.0").toList] true false).2.cutCalled =
      some (("5.3.0").toList, [], false, true, false) := by
  exact c7_backport_guard ⟨fun _ => some 200, none⟩ ⟨fun _ => none, none⟩
    ("5.3.0").toList ("5.3.0").toList [] false false ['5'] ['3'] ['0']
    (by decide) (by decide) (by decide) (by decide) rfl rfl (by decide) rfl

/-- C8 (spec-modelled): in the release-cut background continuation the four
post-release steps run exactly when the release job reported SUCCESS without
error and the release is neither a backport nor a dry run; otherwise none of
them runs. -/
theorem c8_postrelease_gate (env : CutEnv) (release rc : List Char)
    (isFirstMinorRelease backportRelease dryrunRelease : Bool)
    (h1 : env.prechecks.1 = "SUCCESS") (h2 : env.prechecks.2 = none) :
    (CutReleaseDryrun env release rc isFirstMinorRelease backportRelease dryrunRelease).2 =
      (if env.releaseJob.2 = none ∧ env.releaseJob.1 = "SUCCESS" ∧
          backportRelease = false ∧ dryrunRelease = false then
        ⟨true, some (("release-").toList ++ release.take (release.length - 2)),
         some (if rc = [] then release else release ++ '-' :: rc),
         some (if rc = [] then release else release ++ '-' :: rc), true⟩
      else { BgTrace.none with releaseInvoked := true }) ∧
    (CutReleaseDryrun env release rc isFirstMinorRelease backportRelease dryrunRelease).1 =
      none := by
  have hpre := runReleasePrechecks_ok env h1 h2
  constructor
  · simp only [CutReleaseDryrun, hpre]
    rcases henv : env.releaseJob with ⟨res, err⟩
    cases err with
    | some e => simp [henv]
    | none =>
      by_cases hres : res = "SUCCESS"
      · subst hres
        cases backportRelease <;> cases dryrunRelease <;> simp [henv]
      · simp [henv, hres]
  · simp [CutReleaseDryrun, hpre]

/-- Witness for C8: with a successful release job and neither flag set, all
four steps run; the instantiation fixes one concrete environment. -/
theorem c8_postrelease_gate_witness :
    (CutReleaseDryrun ⟨("SUCCESS", none), ("SUCCESS", none)⟩
      ("5.3.0").toList ("rc1").toList true false false).2 =
      (if (("SUCCESS", (none : Option AppError)).2 = none ∧
          ("SUCCESS", (none : Option AppError)).1 = "SUCCESS" ∧
          false = false ∧ false = false) then
        ⟨true, some (("release-").toList ++ ("5.3.0").toList.take (("5.3.0").toList.length - 2)),
         some (if ("rc1").toList = [] then ("5.3.0").toList
               else ("5.3.0").toList ++ '-' :: ("rc1").toList),
         some (if ("rc1").toList = [] then ("5.3.0").toList
               else ("5.3.0").toList ++ '-' :: ("rc1").toList), true⟩
      else { BgTrace.none with releaseInvoked := true }) ∧
    (CutReleaseDryrun ⟨("SUCCESS", none), ("SUCCESS", none)⟩
      ("5.3.0").toList ("rc1").toList true false false).1 = none := by
  exact c8_postrelease_gate ⟨("SUCCESS", none), ("SUCCESS", none)⟩
    ("5.3.0").toList ("rc1").toList true false false rfl rfl

/-- Helper: inversion of a successful `setCIJobDoc`. -/
theorem setCIJobDoc_ok (sj branch : String) (doc doc2 : JobConfigDoc)
    (h : setCIJobDoc sj branch doc = .ok doc2) :
    doc2.defaultValue = some branch ∧
    doc2.upstreamProjects = some (if branch = "master" then "mattermost-enterprise"
      else "mattermost-platform/" ++ branch) := by
  unfold setCIJobDoc at h
  cases hd : doc.defaultValue with
  | none => rw [hd] at h; simp at h
  | some x =>
    rw [hd] at h
    cases hu : doc.upstreamProjects with
    | none => rw [hu] at h; simp at h
    | some y =>
      rw [hu] at h
      simp only [Except.ok.injEq] at h
      rw [← h]
      exact ⟨rfl, rfl⟩

/-- C9: every configuration the CI branch-pointer update writes has its
default-branch element set to the branch itself and its upstream-trigger
element set to `mattermost-enterprise` when the branch is `master` and to
`mattermost-platform/<branch>` otherwise. -/
theorem c9_branch_mapping (env : CIEnv) (jobs : List String) (branch : String)
    (j : String) (d : JobConfigDoc)
    (h : (j, d) ∈ (SetCIServerBranch env jobs branch).2) :
    d.defaultValue = some branch ∧
    d.upstreamProjects = some (if branch = "master" then "mattermost-enterprise"
      else "mattermost-platform/" ++ branch) := by
  induction jobs with
  | nil => simp [SetCIServerBranch] at h
  | cons sj rest ih =>
    rw [SetCIServerBranch] at h
    cases hf : env.fetch sj with
    | error e => simp only [hf] at h; simp at h
    | ok doc =>
      simp only [hf] at h
      cases hs : setCIJobDoc sj branch doc with
      | error e => simp only [hs] at h; simp at h
      | ok doc2 =>
        simp only [hs] at h
        cases hsv : env.save sj doc2 with
        | some e =>
          simp only [hsv] at h
          simp only [List.mem_singleton, Prod.mk.injEq] at h
          rw [h.2]
          exact setCIJobDoc_ok sj branch doc doc2 hs
        | none =>
          simp only [hsv] at h
          simp only [List.mem_cons, Prod.mk.injEq] at h
          rcases h with ⟨_, hd⟩ | hmem
          · rw [hd]
            exact setCIJobDoc_ok sj branch doc doc2 hs
          · exact ih hmem

/-- Witness for C9 at a concrete environment and job list. -/
theorem c9_branch_mapping_witness :
    (("ci1", ⟨some "release-5.3", some "mattermost-platform/release-5.3"⟩) ∈
      (SetCIServerBranch ⟨fun _ => .ok ⟨some "x", some "y"⟩, fun _ _ => none⟩
        ["ci1"] "release-5.3").2) ∧
    (⟨some "release-5.3", some "mattermost-platform/release-5.3"⟩ :
        JobConfigDoc).defaultValue = some "release-5.3" ∧
    (⟨some "release-5.3", some "mattermost-platform/release-5.3"⟩ :
        JobConfigDoc).upstreamProjects =
      some (if "release-5.3" = "master" then "mattermost-enterprise"
        else "mattermost-platform/" ++ "release-5.3") := by
  refine ⟨by decide, ?_, ?_⟩
  · exact (c9_branch_mapping ⟨fun _ => .ok ⟨some "x", some "y"⟩, fun _ _ => none⟩
      ["ci1"] "release-5.3" "ci1" ⟨some "release-5.3", some "mattermost-platform/release-5.3"⟩
      (by decide)).1
  · exact (c9_branch_mapping ⟨fun _ => .ok ⟨some "x", some "y"⟩, fun _ _ => none⟩
      ["ci1"] "release-5.3" "ci1" ⟨some "release-5.3", some "mattermost-platform/release-5.3"⟩
      (by decide)).2

end Matterbuild
